import Mathlib

/-!
Verification of the FSM-driven interactor core (event translation and
event-specification matching), shallowly embedded from
`src/src/FSMInteractor.ts` and `src/out/EventSpec.js`.
-/

set_option maxHeartbeats 1000000

namespace SSUIHW3

/-- Modelled from the spec: the Region collaborator is external to the core
(`Region.ts` is not part of the sources); per §3/§6 a region is identified by a
unique name and carries a bounding box used for hit-testing
(`pick(x,y) -> boolean`). Identity of regions (JS reference identity of the
objects held in the FSM's region array) is modelled by structural equality,
which is decidable here. -/
structure Region where
  name : String
  left : Int
  top : Int
  w : Int
  h : Int
deriving DecidableEq, Repr

/-- Modelled from the spec: hit-test of the external Region collaborator —
geometry sufficient for bounding-box containment (§3, §6). -/
def Region.hit (r : Region) (x y : Int) : Bool :=
  r.left ≤ x && x ≤ r.left + r.w && r.top ≤ y && y ≤ r.top + r.h

/-- Modelled from the spec: the FSM collaborator is consumed only through its
region list and its `actOnEvent` entry point (§6); `actOnEvent` calls are
recorded as a trace rather than executed. -/
structure FSM where
  regions : List Region
deriving DecidableEq, Repr

/-- Modelled from the spec: the hosting Root surface, consumed only through its
`damage()` callback (§6); damage deliveries are counted rather than executed. -/
structure Root where
  id : Nat
deriving DecidableEq, Repr

/-- The closed set of event kinds of `EventSpec.js`
(`evtTypeStrings = ['press', 'release', 'release_none', 'enter', 'exit',
'move_inside', 'any', 'nevermatch']`). -/
inductive EvtKind where
  | press
  | release
  | release_none
  | enter
  | exit
  | move_inside
  | any
  | nevermatch
deriving DecidableEq, Repr

/-- A semantic event as delivered to `FSM.actOnEvent(kind, region?)`:
an event kind with an optionally-absent region. -/
abbrev SemEvent := EvtKind × Option Region

/-- The raw-event kinds accepted by `dispatchRawEvent`. -/
inductive RawKind where
  | press
  | move
  | release
deriving DecidableEq, Repr

/-- The eight legal `evtType` strings, in the order of `evtTypeStrings`;
an unrecognized string yields `none`. -/
def evtKindOfString? (s : String) : Option EvtKind :=
  if s = "press" then some .press
  else if s = "release" then some .release
  else if s = "release_none" then some .release_none
  else if s = "enter" then some .enter
  else if s = "exit" then some .exit
  else if s = "move_inside" then some .move_inside
  else if s = "any" then some .any
  else if s = "nevermatch" then some .nevermatch
  else none

/-- `EventSpec`: an event kind, the authored region name, and the lazily bound
region reference (`_region`, `undefined` until bound). -/
structure EventSpec where
  evtType : EvtKind
  regionName : String
  region : Option Region
deriving DecidableEq, Repr

/-- The `EventSpec` constructor: `_region` starts out `undefined`. -/
def EventSpec.make (evtTyp : EvtKind) (regionName : String) : EventSpec :=
  { evtType := evtTyp, regionName := regionName, region := none }

/-- `EventSpec.fromJson`: `Check.limitedString` (modelled from the spec §6:
an unrecognized `evtType` string is coerced to `nevermatch`) validates the
kind; `Check.stringVal` passes a string region name through. -/
def EventSpec.fromJson (evtType : String) (region : String) : EventSpec :=
  EventSpec.make ((evtKindOfString? evtType).getD .nevermatch) region

/-- `EventSpec.bindRegion(regionList)`. The returned `Bool` records whether
`Err.emit` was invoked (the fatal configuration error). The JS loop binds to
the first region of the list whose name matches. -/
def EventSpec.bindRegion (es : EventSpec) (regionList : List Region) :
    EventSpec × Bool :=
  if es.regionName = "*" then
    ({ es with region := none }, false)
  else
    match regionList.find? (fun r => r.name = es.regionName) with
    | some r => ({ es with region := some r }, false)
    | none =>
      if es.evtType = .nevermatch then
        (es, false)
      else if (es.evtType = .release_none ∨ es.evtType = .any) ∧
          es.regionName = "" then
        ({ es with region := none }, false)
      else
        (es, true)

/-- `EventSpec.match(evtType, regn)` (named `matches` because `match` is a
Lean keyword). -/
def EventSpec.matches (es : EventSpec) (evtType : EvtKind)
    (regn : Option Region) : Bool :=
  if es.regionName = "*" ∧ es.region = none then
    true
  else if es.evtType = .release_none then
    evtType = es.evtType
  else
    evtType = es.evtType && regn = es.region

/-- The interactor state: an optional controlling FSM, a position, an optional
parent Root, and the visited set (`_visited`). -/
structure FSMInteractor where
  fsm : Option FSM
  x : Int
  y : Int
  parent : Option Root
  visited : List Region
deriving DecidableEq, Repr

/-- The `FSMInteractor` constructor: stores the arguments and initializes
`_visited` to the empty array. -/
def FSMInteractor.construct (fsm : Option FSM := none) (x : Int := 0)
    (y : Int := 0) (parent : Option Root := none) : FSMInteractor :=
  { fsm := fsm, x := x, y := y, parent := parent, visited := [] }

/-- `FSMInteractor.damage()`: forwards the notification to the parent Root when
one is present (`this.parent?.damage()`); the result counts the damage
notifications delivered to the parent. -/
def FSMInteractor.damage (fi : FSMInteractor) : Nat :=
  match fi.parent with
  | some _ => 1
  | none => 0

/-- The `x` setter: on a changed value, stores it and calls `this.damage()`.
Returns the new state and the number of damage notifications delivered to the
parent. -/
def FSMInteractor.setX (fi : FSMInteractor) (v : Int) : FSMInteractor × Nat :=
  if ¬ (fi.x = v) then ({ fi with x := v }, fi.damage)
  else (fi, 0)

/-- The `y` setter: on a changed value, stores it and calls `this.damage()`. -/
def FSMInteractor.setY (fi : FSMInteractor) (v : Int) : FSMInteractor × Nat :=
  if ¬ (fi.y = v) then ({ fi with y := v }, fi.damage)
  else (fi, 0)

/-- The `position` setter: on a changed value it stores both coordinates, but
the statement `this.parent?.damage;` only reads the `damage` property without
invoking it, so no damage notification is ever delivered here. -/
def FSMInteractor.setPosition (fi : FSMInteractor) (v : Int × Int) :
    FSMInteractor × Nat :=
  if v.1 ≠ fi.x ∨ v.2 ≠ fi.y then
    ({ fi with x := v.1, y := v.2 }, 0)
  else (fi, 0)

/-- The `parent` setter: on a changed value, declares damage to the old parent,
swaps the link, and declares damage to the new parent. -/
def FSMInteractor.setParent (fi : FSMInteractor) (v : Option Root) :
    FSMInteractor × Nat :=
  if ¬ (fi.parent = v) then
    (({ fi with parent := v }), fi.damage + ({ fi with parent := v } : FSMInteractor).damage)
  else (fi, 0)

/-- `FSMInteractor.pick(localX, localY)`: with no FSM the empty list; otherwise
every region of the FSM hit by the point, pushed in region order and then
reversed (reverse drawing order, topmost first). -/
def FSMInteractor.pick (fi : FSMInteractor) (localX localY : Int) :
    List Region :=
  match fi.fsm with
  | none => []
  | some f => (f.regions.filter (fun r => r.hit localX localY)).reverse

/-- `FSMInteractor.all_exit(v)`: the visited regions absent from `v`, in
visited order (`!v.includes(this.visited[i])`). -/
def FSMInteractor.all_exit (fi : FSMInteractor) (v : List Region) :
    List Region :=
  fi.visited.filter (fun r => ¬ v.contains r)

/-- `FSMInteractor.all_enter(v)`: the regions of `v` absent from visited, in
`v`'s order. -/
def FSMInteractor.all_enter (fi : FSMInteractor) (v : List Region) :
    List Region :=
  v.filter (fun r => ¬ fi.visited.contains r)

/-- `FSMInteractor.all_move_inside(v)`: the regions of `v` present in visited,
in `v`'s order. -/
def FSMInteractor.all_move_inside (fi : FSMInteractor) (v : List Region) :
    List Region :=
  v.filter (fun r => fi.visited.contains r)

/-- `FSMInteractor.dispatchRawEvent(what, localX, localY)`: returns the new
interactor state together with the trace of `fsm.actOnEvent` calls, in
delivery order. With no FSM it is an early return: no events, state kept. -/
def FSMInteractor.dispatchRawEvent (fi : FSMInteractor) (what : RawKind)
    (localX localY : Int) : FSMInteractor × List SemEvent :=
  match fi.fsm with
  | none => (fi, [])
  | some _ =>
    let regions := fi.pick localX localY
    let exits := fi.all_exit regions
    let enters := fi.all_enter regions
    let actionEvts : List SemEvent :=
      match what with
      | .press => regions.map (fun r => (.press, some r))
      | .move => (fi.all_move_inside regions).map (fun r => (.move_inside, some r))
      | .release =>
        if regions.length = 0 then [(.release_none, none)]
        else regions.map (fun r => (.release, some r))
    ({ fi with visited := regions },
      exits.map (fun r => (.exit, some r)) ++
      enters.map (fun r => (.enter, some r)) ++ actionEvts)

/-! ## Specification-side definitions

These restate §4.3 of the specification in its own words (set differences and
intersections over the visited set and the pick list, membership phrased with
`∈` rather than the source's array-containment checks); the refinement
theorems below compare the source embedding against them. -/

/-- Spec §4.3 step 2: `exits = visited − picked`, regions in visited but not in
picked, preserving visited's relative order. -/
def specExits (visited picked : List Region) : List Region :=
  visited.filter (fun r => r ∉ picked)

/-- Spec §4.3 step 3: `enters = picked − visited`, regions in picked but not in
visited, preserving picked's order. -/
def specEnters (visited picked : List Region) : List Region :=
  picked.filter (fun r => r ∉ visited)

/-- Spec §4.3 step 5: the action-specific events for the raw kind. -/
def specActions (what : RawKind) (visited picked : List Region) :
    List SemEvent :=
  match what with
  | .press => picked.map (fun r => (.press, some r))
  | .move =>
    (picked.filter (fun r => r ∈ visited)).map (fun r => (.move_inside, some r))
  | .release =>
    if picked = [] then [(.release_none, none)]
    else picked.map (fun r => (.release, some r))

/-! ## Helper lemmas -/

theorem contains_eq_mem (v : List Region) (r : Region) :
    v.contains r = decide (r ∈ v) := by simp

theorem all_exit_eq (fi : FSMInteractor) (v : List Region) :
    fi.all_exit v = specExits fi.visited v := by
  unfold FSMInteractor.all_exit specExits
  apply List.filter_congr
  intro r _
  simp

theorem all_enter_eq (fi : FSMInteractor) (v : List Region) :
    fi.all_enter v = specEnters fi.visited v := by
  unfold FSMInteractor.all_enter specEnters
  apply List.filter_congr
  intro r _
  simp

theorem all_move_inside_eq (fi : FSMInteractor) (v : List Region) :
    fi.all_move_inside v = v.filter (fun r => r ∈ fi.visited) := by
  unfold FSMInteractor.all_move_inside
  apply List.filter_congr
  intro r _
  simp

/-- Trace decomposition of `dispatchRawEvent` with an FSM attached: exits
first, then enters, then the action-specific events, in the spec's phrasing. -/
theorem dispatchRawEvent_trace (fi : FSMInteractor) (f : FSM) (what : RawKind)
    (lx ly : Int) (h : fi.fsm = some f) :
    (fi.dispatchRawEvent what lx ly).2 =
      (specExits fi.visited (fi.pick lx ly)).map (fun r => (.exit, some r)) ++
      (specEnters fi.visited (fi.pick lx ly)).map (fun r => (.enter, some r)) ++
      specActions what fi.visited (fi.pick lx ly) := by
  unfold FSMInteractor.dispatchRawEvent
  rw [h]
  simp only [all_exit_eq, all_enter_eq, all_move_inside_eq]
  cases what <;> simp [specActions, List.length_eq_zero]

/-- State effect of `dispatchRawEvent` with an FSM attached: the visited set is
replaced by the pick list and nothing else changes. -/
theorem dispatchRawEvent_state (fi : FSMInteractor) (f : FSM) (what : RawKind)
    (lx ly : Int) (h : fi.fsm = some f) :
    (fi.dispatchRawEvent what lx ly).1 =
      { fi with visited := fi.pick lx ly } := by
  unfold FSMInteractor.dispatchRawEvent
  rw [h]

/-- `dispatchRawEvent` with no FSM attached is an early return. -/
theorem dispatchRawEvent_none (fi : FSMInteractor) (what : RawKind)
    (lx ly : Int) (h : fi.fsm = none) :
    fi.dispatchRawEvent what lx ly = (fi, []) := by
  unfold FSMInteractor.dispatchRawEvent
  rw [h]

theorem filter_kind_of_ne {k k' : EvtKind} (h : k ≠ k') (l : List Region)
    (g : Region → Option Region) :
    (l.map (fun r => ((k, g r) : SemEvent))).filter
      (fun e => e.1 = k') = [] := by
  refine List.filter_eq_nil_iff.mpr ?_
  intro e he
  rcases List.mem_map.mp he with ⟨r, _, rfl⟩
  simp [h]

theorem filter_kind_map_self (k : EvtKind) (l : List Region)
    (g : Region → Option Region) :
    (l.map (fun r => ((k, g r) : SemEvent))).filter (fun e => e.1 = k) =
      l.map (fun r => (k, g r)) := by
  refine List.filter_eq_self.mpr ?_
  intro e he
  rcases List.mem_map.mp he with ⟨r, _, rfl⟩
  simp

/-! ## Concrete fixtures used by witnesses and counterexamples -/

def regA : Region := ⟨"A", 0, 0, 10, 10⟩

def regB : Region := ⟨"B", 3, 3, 10, 10⟩

def fsmAB : FSM := ⟨[regA, regB]⟩

/-- An interactor over regions `A` and `B` whose previous sample visited
`[B, A]` (the pick list at `(5,5)`, topmost first). -/
def interAB : FSMInteractor :=
  { fsm := some fsmAB, x := 0, y := 0, parent := none, visited := [regB, regA] }

/-! ## Claims -/

/-- C1: with an FSM attached, the semantic events delivered to `actOnEvent`
by one `dispatchRawEvent` call are exactly: an `exit` for each region in the
previous visited set but not in the new pick list (in visited's relative
order), then an `enter` for each region in the pick list but not in the
visited set (in the pick list's order), then the action-specific events for
the raw kind — and nothing else. -/
theorem C1_event_order (fi : FSMInteractor) (f : FSM) (what : RawKind)
    (lx ly : Int) (h : fi.fsm = some f) :
    (fi.dispatchRawEvent what lx ly).2 =
      (specExits fi.visited (fi.pick lx ly)).map (fun r => (.exit, some r)) ++
      (specEnters fi.visited (fi.pick lx ly)).map (fun r => (.enter, some r)) ++
      specActions what fi.visited (fi.pick lx ly) :=
  dispatchRawEvent_trace fi f what lx ly h

theorem C1_event_order_witness :
    interAB.fsm = some fsmAB ∧
    (interAB.dispatchRawEvent .release 50 50).2 =
      (specExits interAB.visited (interAB.pick 50 50)).map
        (fun r => (.exit, some r)) ++
      (specEnters interAB.visited (interAB.pick 50 50)).map
        (fun r => (.enter, some r)) ++
      specActions .release interAB.visited (interAB.pick 50 50) :=
  ⟨rfl, C1_event_order interAB fsmAB .release 50 50 rfl⟩

/-- C8: with no FSM attached, `dispatchRawEvent` delivers no events and leaves
the whole interactor state unchanged, and `pick` returns the empty sequence at
every point. -/
theorem C8_no_fsm_noop (fi : FSMInteractor) (what : RawKind) (lx ly : Int)
    (h : fi.fsm = none) :
    fi.dispatchRawEvent what lx ly = (fi, []) ∧ fi.pick lx ly = [] := by
  refine ⟨dispatchRawEvent_none fi what lx ly h, ?_⟩
  unfold FSMInteractor.pick
  rw [h]

theorem C8_no_fsm_noop_witness :
    (FSMInteractor.construct none 0 0 none).fsm = none ∧
    (FSMInteractor.construct none 0 0 none).dispatchRawEvent .press 5 5 =
      (FSMInteractor.construct none 0 0 none, []) ∧
    (FSMInteractor.construct none 0 0 none).pick 5 5 = [] :=
  ⟨rfl, C8_no_fsm_noop (FSMInteractor.construct none 0 0 none) .press 5 5 rfl⟩

/-- C7: the visited set is empty at construction; every `dispatchRawEvent`
call replaces it wholesale with the pick list computed for that call (given
the reachable-state invariant that a missing FSM implies an empty visited
set, since only dispatch ever writes it); and none of the other interactor
operations mutates it. -/
theorem C7_visited_lifecycle (fsm : Option FSM) (x y : Int)
    (parent : Option Root) (fi : FSMInteractor) (what : RawKind)
    (lx ly v w : Int) (p : Int × Int) (pr : Option Root)
    (hinv : fi.fsm = none → fi.visited = []) :
    (FSMInteractor.construct fsm x y parent).visited = [] ∧
    (fi.dispatchRawEvent what lx ly).1.visited = fi.pick lx ly ∧
    (fi.setX v).1.visited = fi.visited ∧
    (fi.setY w).1.visited = fi.visited ∧
    (fi.setPosition p).1.visited = fi.visited ∧
    (fi.setParent pr).1.visited = fi.visited := by
  refine ⟨rfl, ?_, ?_, ?_, ?_, ?_⟩
  · cases hf : fi.fsm with
    | none =>
      rw [dispatchRawEvent_none fi what lx ly hf]
      unfold FSMInteractor.pick
      rw [hf, hinv hf]
    | some f => rw [dispatchRawEvent_state fi f what lx ly hf]
  · unfold FSMInteractor.setX
    split <;> rfl
  · unfold FSMInteractor.setY
    split <;> rfl
  · unfold FSMInteractor.setPosition
    split <;> rfl
  · unfold FSMInteractor.setParent
    split <;> rfl

theorem C7_visited_lifecycle_witness :
    ((FSMInteractor.construct none 0 0 none).fsm = none →
      (FSMInteractor.construct none 0 0 none).visited = []) ∧
    (FSMInteractor.construct (some fsmAB) 1 2 none).visited = [] ∧
    ((FSMInteractor.construct none 0 0 none).dispatchRawEvent .move 5 5).1.visited =
      (FSMInteractor.construct none 0 0 none).pick 5 5 ∧
    ((FSMInteractor.construct none 0 0 none).setX 3).1.visited =
      (FSMInteractor.construct none 0 0 none).visited ∧
    ((FSMInteractor.construct none 0 0 none).setY 4).1.visited =
      (FSMInteractor.construct none 0 0 none).visited ∧
    ((FSMInteractor.construct none 0 0 none).setPosition (3, 4)).1.visited =
      (FSMInteractor.construct none 0 0 none).visited ∧
    ((FSMInteractor.construct none 0 0 none).setParent (some ⟨7⟩)).1.visited =
      (FSMInteractor.construct none 0 0 none).visited :=
  ⟨fun _ => rfl,
    C7_visited_lifecycle (some fsmAB) 1 2 none
      (FSMInteractor.construct none 0 0 none) .move 5 5 3 4 (3, 4) (some ⟨7⟩)
      (fun _ => rfl)⟩

/-- C2: for a `release` dispatch with an FSM attached: with an empty pick
list, exactly one `release_none` event (with no region) and no per-region
`release` events are delivered; with a non-empty pick list, one `release`
event per picked region, in the pick list's order, and no `release_none`. -/
theorem C2_release_semantics (fi : FSMInteractor) (f : FSM) (lx ly : Int)
    (h : fi.fsm = some f) :
    (fi.pick lx ly = [] →
      (fi.dispatchRawEvent .release lx ly).2.filter
          (fun e => e.1 = EvtKind.release_none) = [(.release_none, none)] ∧
      (fi.dispatchRawEvent .release lx ly).2.filter
          (fun e => e.1 = EvtKind.release) = []) ∧
    (fi.pick lx ly ≠ [] →
      (fi.dispatchRawEvent .release lx ly).2.filter
          (fun e => e.1 = EvtKind.release) =
        (fi.pick lx ly).map (fun r => (.release, some r)) ∧
      (fi.dispatchRawEvent .release lx ly).2.filter
          (fun e => e.1 = EvtKind.release_none) = []) := by
  rw [dispatchRawEvent_trace fi f .release lx ly h]
  constructor
  · intro hemp
    rw [hemp]
    constructor <;>
      simp [List.filter_append, specActions, specExits, specEnters,
        filter_kind_of_ne]
  · intro hne
    constructor <;>
      simp [List.filter_append, specActions, hne, filter_kind_of_ne,
        filter_kind_map_self]

theorem C2_release_semantics_witness :
    interAB.fsm = some fsmAB ∧
    (interAB.pick 50 50 = [] →
      (interAB.dispatchRawEvent .release 50 50).2.filter
          (fun e => e.1 = EvtKind.release_none) = [(.release_none, none)] ∧
      (interAB.dispatchRawEvent .release 50 50).2.filter
          (fun e => e.1 = EvtKind.release) = []) ∧
    (interAB.pick 50 50 ≠ [] →
      (interAB.dispatchRawEvent .release 50 50).2.filter
          (fun e => e.1 = EvtKind.release) =
        (interAB.pick 50 50).map (fun r => (.release, some r)) ∧
      (interAB.dispatchRawEvent .release 50 50).2.filter
          (fun e => e.1 = EvtKind.release_none) = []) :=
  ⟨rfl, C2_release_semantics interAB fsmAB 50 50 rfl⟩

/-- C5: for a `move` dispatch with an FSM attached, `move_inside` events are
delivered exactly for the regions in both the previous visited set and the new
pick list, in the pick list's order, and for no others. -/
theorem C5_move_inside_intersection (fi : FSMInteractor) (f : FSM)
    (lx ly : Int) (h : fi.fsm = some f) :
    (fi.dispatchRawEvent .move lx ly).2.filter
        (fun e => e.1 = EvtKind.move_inside) =
      ((fi.pick lx ly).filter (fun r => r ∈ fi.visited)).map
        (fun r => (.move_inside, some r)) ∧
    ∀ r : Region,
      ((EvtKind.move_inside, some r) ∈ (fi.dispatchRawEvent .move lx ly).2 ↔
        r ∈ fi.pick lx ly ∧ r ∈ fi.visited) := by
  rw [dispatchRawEvent_trace fi f .move lx ly h]
  constructor
  · simp [List.filter_append, specActions, filter_kind_of_ne,
      filter_kind_map_self]
  · intro r
    simp [specActions, specExits, specEnters, List.mem_filter]

theorem C5_move_inside_intersection_witness :
    interAB.fsm = some fsmAB ∧
    ((interAB.dispatchRawEvent .move 5 5).2.filter
        (fun e => e.1 = EvtKind.move_inside) =
      ((interAB.pick 5 5).filter (fun r => r ∈ interAB.visited)).map
        (fun r => (.move_inside, some r)) ∧
    ∀ r : Region,
      ((EvtKind.move_inside, some r) ∈ (interAB.dispatchRawEvent .move 5 5).2 ↔
        r ∈ interAB.pick 5 5 ∧ r ∈ interAB.visited)) :=
  ⟨rfl, C5_move_inside_intersection interAB fsmAB 5 5 rfl⟩

/-- C3 counterexample: a wildcard specification of kind `press`, unbound after
`bindRegion`, matches a `release` event even though the supplied kind differs
from its own kind — so `match` does not return true "exactly when the supplied
kind also equals the specification's own event kind". -/
theorem C3_wildcard_counterexample :
    ((EventSpec.make .press "*").bindRegion []).1.matches .release none = true ∧
    EvtKind.release ≠ EvtKind.press := by
  refine ⟨rfl, ?_⟩
  decide

/-- C3 amended: a specification whose regionName is `"*"` is unbound after
`bindRegion` and its `match` returns true for every (kind, region) pair
unconditionally — the kind is not compared at all. -/
theorem C3_wildcard_matches_all (es : EventSpec) (rl : List Region)
    (k : EvtKind) (r : Option Region) (h : es.regionName = "*") :
    (es.bindRegion rl).1.matches k r = true := by
  unfold EventSpec.bindRegion
  rw [if_pos h]
  unfold EventSpec.matches
  rw [if_pos ⟨h, rfl⟩]

theorem C3_wildcard_matches_all_witness :
    (EventSpec.make .press "*").regionName = "*" ∧
    ((EventSpec.make .press "*").bindRegion [regA]).1.matches .enter
      (some regB) = true :=
  ⟨rfl, C3_wildcard_matches_all (EventSpec.make .press "*") [regA] .enter
    (some regB) rfl⟩

/-- C4 counterexample: a specification coerced to `nevermatch` by `fromJson`
whose regionName is `"*"` hits the wildcard branch of `match` and returns true
for an arbitrary (kind, region) pair — it can fire, contradicting the claim
that `match` returns false for every pair regardless of regionName. -/
theorem C4_nevermatch_counterexample :
    (EventSpec.fromJson "bogus" "*").evtType = EvtKind.nevermatch ∧
    ((EventSpec.fromJson "bogus" "*").bindRegion []).1.matches .press
      none = true := by
  exact ⟨rfl, rfl⟩

/-- C4 amended: a specification of kind `nevermatch` whose regionName is not
`"*"` (whether or not a region got bound) fails `match` for every (kind,
region) pair whose kind differs from `nevermatch` — in particular for every
kind the event translator ever delivers, so it can never fire. -/
theorem C4_nevermatch_never_fires (es : EventSpec) (k : EvtKind)
    (r : Option Region) (h1 : es.evtType = .nevermatch)
    (h2 : es.regionName ≠ "*") (h3 : k ≠ .nevermatch) :
    es.matches k r = false := by
  unfold EventSpec.matches
  rw [if_neg (fun hc => h2 hc.1), if_neg (by rw [h1]; decide), h1]
  simp [h3]

theorem C4_nevermatch_never_fires_witness :
    (EventSpec.fromJson "bogus" "A").evtType = EvtKind.nevermatch ∧
    (EventSpec.fromJson "bogus" "A").regionName ≠ "*" ∧
    EvtKind.press ≠ EvtKind.nevermatch ∧
    (EventSpec.fromJson "bogus" "A").matches .press (some regA) = false :=
  ⟨rfl, by decide, by decide,
    C4_nevermatch_never_fires (EventSpec.fromJson "bogus" "A") .press
      (some regA) rfl (by decide) (by decide)⟩

/-- C6: binding a specification whose named region is absent from the region
list (name neither `"*"` nor exempt): with kind `press` the fatal
configuration error is reported; with kind `nevermatch` binding completes
silently, reports no error, and leaves no region bound. -/
theorem C6_absent_region_binding (nm : String) (rl : List Region)
    (h1 : nm ≠ "*") (h2 : ∀ r ∈ rl, r.name ≠ nm) :
    ((EventSpec.make .press nm).bindRegion rl).2 = true ∧
    (EventSpec.make .nevermatch nm).bindRegion rl =
      (EventSpec.make .nevermatch nm, false) := by
  have hfind : ∀ t : EvtKind,
      rl.find? (fun r => r.name = (EventSpec.make t nm).regionName) = none := by
    intro t
    refine List.find?_eq_none.mpr ?_
    intro r hr
    simp [EventSpec.make, h2 r hr]
  constructor
  · unfold EventSpec.bindRegion
    rw [if_neg (by simpa [EventSpec.make] using h1), hfind .press]
    rfl
  · unfold EventSpec.bindRegion
    rw [if_neg (by simpa [EventSpec.make] using h1), hfind .nevermatch]
    rfl

theorem C6_absent_region_binding_witness :
    ("C" : String) ≠ "*" ∧ (∀ r ∈ [regA, regB], r.name ≠ "C") ∧
    ((EventSpec.make .press "C").bindRegion [regA, regB]).2 = true ∧
    (EventSpec.make .nevermatch "C").bindRegion [regA, regB] =
      (EventSpec.make .nevermatch "C", false) :=
  ⟨by decide, by decide,
    C6_absent_region_binding "C" [regA, regB] (by decide) (by decide)⟩

/-- C10: when `bindRegion` reports the configuration error for a specification
whose region field was still unbound, the region field remains unbound
afterwards, and `match` on the specification's own kind with an undefined
region still returns true. -/
theorem C10_errored_spec_still_matches (es : EventSpec) (rl : List Region)
    (h0 : es.region = none) (herr : (es.bindRegion rl).2 = true) :
    (es.bindRegion rl).1.region = none ∧
    ∀ k : EvtKind, k = es.evtType →
      (es.bindRegion rl).1.matches k none = true := by
  have hstar : es.regionName ≠ "*" := by
    intro hc
    rw [EventSpec.bindRegion, if_pos hc] at herr
    exact Bool.false_ne_true herr
  have hbind : es.bindRegion rl = (es, true) := by
    unfold EventSpec.bindRegion at herr ⊢
    rw [if_neg hstar] at herr ⊢
    cases hfind : rl.find? (fun r => r.name = es.regionName) with
    | some r => simp_all
    | none =>
      by_cases hnv : es.evtType = .nevermatch
      · simp_all
      · by_cases hex : (es.evtType = .release_none ∨ es.evtType = .any) ∧
            es.regionName = ""
        · split at herr <;> simp_all
        · simp_all
  rw [hbind]
  refine ⟨h0, ?_⟩
  intro k hk
  unfold EventSpec.matches
  rw [if_neg (fun hc => hstar hc.1)]
  by_cases hrn : es.evtType = .release_none
  · rw [if_pos hrn]
    simp [hk]
  · rw [if_neg hrn]
    simp [hk, h0]

theorem C10_errored_spec_still_matches_witness :
    (EventSpec.make .press "C").region = none ∧
    ((EventSpec.make .press "C").bindRegion [regA]).2 = true ∧
    ((EventSpec.make .press "C").bindRegion [regA]).1.region = none ∧
    ((EventSpec.make .press "C").bindRegion [regA]).1.matches .press
      none = true :=
  ⟨rfl, rfl,
    (C10_errored_spec_still_matches (EventSpec.make .press "C") [regA]
      rfl rfl).1,
    (C10_errored_spec_still_matches (EventSpec.make .press "C") [regA]
      rfl rfl).2 .press rfl⟩

/-- C9: with a parent attached, the `x` and `y` setters deliver one damage
notification on a changed value and none on an unchanged value — but the
`position` setter delivers none even when it changes both coordinates, because
its body only reads the `damage` property (`this.parent?.damage;`) instead of
invoking it. The last three conjuncts exhibit the divergence from the claim. -/
theorem C9_position_setter_no_damage :
    ((FSMInteractor.construct none 0 0 (some ⟨0⟩)).setX 1).2 = 1 ∧
    ((FSMInteractor.construct none 0 0 (some ⟨0⟩)).setY 2).2 = 1 ∧
    ((FSMInteractor.construct none 0 0 (some ⟨0⟩)).setX 0).2 = 0 ∧
    ((FSMInteractor.construct none 0 0 (some ⟨0⟩)).setY 0).2 = 0 ∧
    ((FSMInteractor.construct none 0 0 (some ⟨0⟩)).setPosition (1, 2)).1.x = 1 ∧
    ((FSMInteractor.construct none 0 0 (some ⟨0⟩)).setPosition (1, 2)).1.y = 2 ∧
    ((FSMInteractor.construct none 0 0 (some ⟨0⟩)).setPosition (1, 2)).2 = 0 := by
  decide

end SSUIHW3
